import Mathlib

/-!
Verification of the CSV ingestion and upload logic of
`src/components/admin/CsvUpload.tsx` (the `handleUpload` handler of the
`CsvUpload` component), shallowly embedded in Lean 4.

JavaScript semantics modelled here:
  * `text.split('\n')` splits on every occurrence of the separator and keeps
    empty pieces; `"".split(sep)` is `[""]`.
  * `String.prototype.trim` removes leading/trailing JS whitespace.
  * array indexing beyond the bounds yields `undefined` (here `Option.none`).
  * `parseFloat` parses the longest numeric prefix after skipping leading
    whitespace and yields `NaN` when nothing parses; `parseFloat(undefined)`
    stringifies the argument and parses `"undefined"`, which is `NaN`.
    JS numbers are IEEE doubles; the claims under study only involve small
    integral values, which doubles represent exactly, so the numeric value is
    modelled as an exact rational (plus NaN / signed Infinity).
-/

/- Batteries marks the arithmetic on `Rat` `@[irreducible]`; restore
definitional unfolding locally so that concrete ingestion runs can be settled
by `decide`. -/
attribute [local semireducible] Rat.mul Rat.add Rat.sub Rat.inv Rat.ofScientific

namespace CsvUpload

/-- JS whitespace as used by `String.prototype.trim` and `parseFloat`
(WhiteSpace ∪ LineTerminator). -/
def isJsWs (c : Char) : Bool :=
  c = ' ' || c = '\t' || c = '\n' || c = '\x0b' || c = '\x0c' || c = '\r' ||
  c = '\u00A0' || c = '\u1680' ||
  ('\u2000' ≤ c && c ≤ '\u200A') ||
  c = '\u2028' || c = '\u2029' || c = '\u202F' || c = '\u205F' ||
  c = '\u3000' || c = '\uFEFF'

/-- `xs.split(sep)` for a single-character separator, on character lists:
splits at every separator occurrence, keeping empty pieces. -/
def splitList (sep : Char) : List Char → List (List Char)
  | [] => [[]]
  | c :: cs =>
    if c = sep then
      [] :: splitList sep cs
    else
      match splitList sep cs with
      | [] => [[c]]
      | g :: gs => (c :: g) :: gs

/-- JS `s.split(sep)` for a one-character separator string. -/
def jsSplit (sep : Char) (s : String) : List String :=
  (splitList sep s.data).map String.mk

/-- JS `s.trim()`. -/
def jsTrim (s : String) : String :=
  String.mk (((s.data.dropWhile isJsWs).reverse.dropWhile isJsWs).reverse)

/-- JS `s.endsWith(suffix)`. -/
def jsEndsWith (s suffix : String) : Bool :=
  suffix.data.isSuffixOf s.data

/-- JS `Array.prototype.join(sep)`. -/
def jsJoin (sep : String) : List String → String
  | [] => ""
  | x :: xs => xs.foldl (fun acc y => acc ++ sep ++ y) x

/-- A JS number as produced by `parseFloat`: NaN, a signed infinity, or a
finite value (exact rational; see the header comment). -/
inductive JsNum where
  | nan : JsNum
  | inf (neg : Bool) : JsNum
  | num (q : ℚ) : JsNum
deriving DecidableEq, Repr

/-- Value of a string of decimal digits. -/
def digitsVal (ds : List Char) : Nat :=
  ds.foldl (fun a c => 10 * a + (c.toNat - 48)) 0

/-- Consume an optional leading sign; `true` means negative. -/
def parseSign : List Char → Bool × List Char
  | '-' :: r => (true, r)
  | '+' :: r => (false, r)
  | cs => (false, cs)

/-- Value contributed by an optional exponent part `[eE][+-]?digits` at the
given position; an exponent that fails to match contributes `0` (i.e. the
longest valid prefix ends before the `e`). -/
def parseExponent (cs : List Char) : Int :=
  match cs with
  | c :: r =>
    if c = 'e' || c = 'E' then
      let (neg, r2) := parseSign r
      let ds := r2.takeWhile Char.isDigit
      if ds.isEmpty then 0
      else if neg then -(digitsVal ds : Int) else (digitsVal ds : Int)
    else 0
  | [] => 0

/-- Ten to an integer power, as a rational. -/
def powTen : Int → ℚ
  | Int.ofNat n => ((10 ^ n : ℕ) : ℚ)
  | Int.negSucc n => mkRat 1 (10 ^ (n + 1))

/-- Assemble a finite `parseFloat` result: sign, merged mantissa digits,
number of fraction digits, decimal exponent. -/
def mkQ (neg : Bool) (m : Nat) (fracLen : Nat) (e : Int) : ℚ :=
  let q : ℚ := (m : ℚ) * powTen (e - (fracLen : Int))
  if neg then -q else q

/-- JS `parseFloat(s)`: skip leading whitespace, then parse the longest
prefix of the form `[+-]?(Infinity | digits(.digits?)?exp? | .digits exp?)`;
NaN when no such prefix exists. -/
def parseFloat (s : String) : JsNum :=
  let cs := s.data.dropWhile isJsWs
  let (neg, cs1) := parseSign cs
  if cs1.take 8 = "Infinity".data then JsNum.inf neg
  else
    let ipart := cs1.takeWhile Char.isDigit
    let cs2 := cs1.dropWhile Char.isDigit
    match cs2 with
    | '.' :: cs3 =>
      let fpart := cs3.takeWhile Char.isDigit
      let cs4 := cs3.dropWhile Char.isDigit
      if ipart.isEmpty && fpart.isEmpty then JsNum.nan
      else JsNum.num (mkQ neg (digitsVal (ipart ++ fpart)) fpart.length (parseExponent cs4))
    | _ =>
      if ipart.isEmpty then JsNum.nan
      else JsNum.num (mkQ neg (digitsVal ipart) 0 (parseExponent cs2))

/-- `parseFloat` applied to a possibly-undefined value: JS stringifies
`undefined` to `"undefined"` first, which parses to NaN. -/
def parseFloatOpt : Option String → JsNum
  | none => parseFloat "undefined"
  | some s => parseFloat s

/-- The `requiredColumns` array of `handleUpload` (line 53), in source order:
this order is the canonical order of the required set. -/
def requiredColumns : List String :=
  ["id", "name", "description", "basePrice", "stock", "image", "category"]

/-- The product record built per data row. `basePrice` and `stock` hold JS
numbers; the other fields hold a string or `undefined` (`none`), since an
out-of-range `values[index]` overwrites the default with `undefined`. -/
structure Product where
  id : Option String
  name : Option String
  description : Option String
  basePrice : JsNum
  stock : JsNum
  image : Option String
  category : Option String
deriving DecidableEq, Repr

/-- The object literal initialising `product` (lines 63-71): empty strings
and zeroes. -/
def emptyProduct : Product :=
  { id := some "", name := some "", description := some "",
    basePrice := JsNum.num 0, stock := JsNum.num 0,
    image := some "", category := some "" }

/-- One iteration of the `headers.forEach` loop (lines 73-79):
`product[header] = parseFloat(values[index])` for `basePrice`/`stock`,
`product[header] = values[index]` for the other five field names. A header
that is none of the seven adds an extraneous key to the JS object, which the
typed record does not carry. -/
def assignField (p : Product) (header : String) (v : Option String) : Product :=
  if header = "basePrice" then { p with basePrice := parseFloatOpt v }
  else if header = "stock" then { p with stock := parseFloatOpt v }
  else if header = "id" then { p with id := v }
  else if header = "name" then { p with name := v }
  else if header = "description" then { p with description := v }
  else if header = "image" then { p with image := v }
  else if header = "category" then { p with category := v }
  else p

/-- The body of the `rows.slice(1).map` callback (lines 61-82) applied to an
already-split value array: fold the `headers.forEach` loop over the enumerated
headers, starting from the object literal. -/
def recordFromValues (headers values : List String) : Product :=
  (headers.enum).foldl (fun p hv => assignField p hv.2 values[hv.1]?) emptyProduct

/-- The `map` callback on a raw row string: `const values = row.split(',')`
then the `forEach` loop. -/
def rowToProduct (headers : List String) (row : String) : Product :=
  recordFromValues headers (jsSplit ',' row)

/-- Line 49: `text.split('\n').filter(row => row.trim() !== '')`. -/
def jsRows (text : String) : List String :=
  (jsSplit '\n' text).filter (fun row => jsTrim row != "")

/-- Line 50: `rows[0].split(',')` applied to the header row. -/
def jsHeaders (headerRow : String) : List String :=
  jsSplit ',' headerRow

/-- Line 54: `requiredColumns.filter(col => !headers.includes(col))`. -/
def missingOf (headerRow : String) : List String :=
  requiredColumns.filter (fun col => !(jsHeaders headerRow).contains col)

/-- How an ingestion attempt fails: the TypeError raised by
`rows[0].split(',')` when the filtered row list is empty (`rows[0]` is
`undefined`), or the `Error` thrown on line 57 for missing required columns
(carrying the missing names). -/
inductive IngestError where
  | typeError : IngestError
  | validation (missing : List String) : IngestError
deriving DecidableEq, Repr

/-- The user-facing message of each error, per the `catch` block (line 95):
`error.message`. The validation message is the template literal of line 57;
the TypeError message is the engine-supplied text (V8 wording, apostrophes
elided). -/
def errorMessage : IngestError → String
  | IngestError.typeError => "Cannot read properties of undefined (reading split)"
  | IngestError.validation missing => "Missing required columns: " ++ jsJoin ", " missing

/-- Lines 48-82 of `handleUpload`: split into non-blank rows, read the header
from `rows[0]` (a TypeError when there is no row), validate required columns,
then map the remaining rows to product records. -/
def ingest (text : String) : Except IngestError (List Product) :=
  match jsRows text with
  | [] => Except.error IngestError.typeError
  | headerRow :: dataRows =>
    if (missingOf headerRow).isEmpty then
      Except.ok (dataRows.map (rowToProduct (jsHeaders headerRow)))
    else
      Except.error (IngestError.validation (missingOf headerRow))

/-- The selected file: name and text content. -/
structure JsFile where
  name : String
  content : String
deriving DecidableEq, Repr

/-- The `uploadStatus` state set by `handleUpload`. -/
inductive UploadStatus where
  | success (message : String) : UploadStatus
  | error (message : String) : UploadStatus
deriving DecidableEq, Repr

/-- Observable outcome of one `handleUpload` run: the final status, and the
list of `uploadProducts` invocations (each with its argument). -/
structure UploadResult where
  status : UploadStatus
  storeCalls : List (List Product)
deriving DecidableEq, Repr

/-- `handleUpload` (lines 23-100): no-file and extension checks first (before
any read or parse), then ingestion; `uploadProducts` is called exactly once,
only on the success path, with the whole record list. -/
def handleUpload (file : Option JsFile) : UploadResult :=
  match file with
  | none =>
    { status := UploadStatus.error "Please select a CSV file.", storeCalls := [] }
  | some f =>
    if jsEndsWith f.name ".csv" then
      match ingest f.content with
      | Except.error e =>
        { status := UploadStatus.error (errorMessage e), storeCalls := [] }
      | Except.ok products =>
        { status := UploadStatus.success
            ("Successfully processed " ++ toString products.length ++ " products."),
          storeCalls := [products] }
    else
      { status := UploadStatus.error "Please upload a valid CSV file.", storeCalls := [] }

instance : DecidableEq (Except IngestError (List Product)) := fun a b =>
  match a, b with
  | Except.ok x, Except.ok y => decidable_of_iff (x = y) (by simp)
  | Except.error x, Except.error y => decidable_of_iff (x = y) (by simp)
  | Except.ok _, Except.error _ => isFalse (by simp)
  | Except.error _, Except.ok _ => isFalse (by simp)

/-- The sample record of the round-trip property: the data row
`1,Laptop Pro,High-performance laptop,1200,10,https://example.com/laptop.jpg,Electronics`
under the canonical header. -/
def sampleProduct : Product :=
  { id := some "1", name := some "Laptop Pro",
    description := some "High-performance laptop",
    basePrice := JsNum.num 1200, stock := JsNum.num 10,
    image := some "https://example.com/laptop.jpg",
    category := some "Electronics" }

/-! ### Helper lemmas -/

/-- Index (relative base `n`) of the last occurrence of `fname` in the list,
if any: the last `forEach` assignment to a field wins. -/
def lastIdxFrom (fname : String) : Nat → List String → Option Nat
  | _, [] => none
  | n, h :: t =>
    match lastIdxFrom fname (n + 1) t with
    | some i => some i
    | none => if h = fname then some n else none

theorem assignField_basePrice (p : Product) (h : String) (v : Option String) :
    (assignField p h v).basePrice
      = if h = "basePrice" then parseFloatOpt v else p.basePrice := by
  simp only [assignField]
  split_ifs <;> rfl

theorem assignField_stock (p : Product) (h : String) (v : Option String) :
    (assignField p h v).stock
      = if h = "stock" then parseFloatOpt v else p.stock := by
  simp only [assignField]
  split_ifs <;> first | rfl | (exfalso; simp_all)

theorem assignField_id (p : Product) (h : String) (v : Option String) :
    (assignField p h v).id = if h = "id" then v else p.id := by
  simp only [assignField]
  split_ifs <;> first | rfl | (exfalso; simp_all)

/-- Evaluation of the `forEach` fold at a single field, via a field reader
`get`: the result is determined by the last header occurrence of the field
name, reading `values` at that position. -/
theorem foldAssign_eval {α : Type} (get : Product → α) (fname : String)
    (F : Option String → α)
    (hset : ∀ p v, get (assignField p fname v) = F v)
    (hother : ∀ p h v, h ≠ fname → get (assignField p h v) = get p)
    (values : List String) :
    ∀ (headers : List String) (n : Nat) (p : Product),
      get ((List.enumFrom n headers).foldl
            (fun q hv => assignField q hv.2 values[hv.1]?) p)
        = match lastIdxFrom fname n headers with
          | some i => F values[i]?
          | none => get p := by
  intro headers
  induction headers with
  | nil => intro n p; rfl
  | cons h t ih =>
    intro n p
    rw [List.enumFrom_cons, List.foldl_cons, ih]
    cases hl : lastIdxFrom fname (n + 1) t with
    | some i => simp [lastIdxFrom, hl]
    | none =>
      by_cases hh : h = fname
      · subst hh; simp [lastIdxFrom, hl, hset]
      · simp [lastIdxFrom, hl, hh, hother _ _ _ hh]

theorem recordFromValues_basePrice (headers values : List String) :
    (recordFromValues headers values).basePrice
      = match lastIdxFrom "basePrice" 0 headers with
        | some i => parseFloatOpt values[i]?
        | none => JsNum.num 0 := by
  exact foldAssign_eval Product.basePrice "basePrice" parseFloatOpt
    (fun p v => by rw [assignField_basePrice, if_pos rfl])
    (fun p h v hh => by rw [assignField_basePrice, if_neg hh])
    values headers 0 emptyProduct

theorem recordFromValues_stock (headers values : List String) :
    (recordFromValues headers values).stock
      = match lastIdxFrom "stock" 0 headers with
        | some i => parseFloatOpt values[i]?
        | none => JsNum.num 0 := by
  exact foldAssign_eval Product.stock "stock" parseFloatOpt
    (fun p v => by rw [assignField_stock, if_pos rfl])
    (fun p h v hh => by rw [assignField_stock, if_neg hh])
    values headers 0 emptyProduct

theorem recordFromValues_id (headers values : List String) :
    (recordFromValues headers values).id
      = match lastIdxFrom "id" 0 headers with
        | some i => values[i]?
        | none => some "" := by
  exact foldAssign_eval Product.id "id" (fun v => v)
    (fun p v => by rw [assignField_id, if_pos rfl])
    (fun p h v hh => by rw [assignField_id, if_neg hh])
    values headers 0 emptyProduct

/-- The `forEach` fold reads `values` only at the header indices. -/
theorem foldAssign_congr (values values' : List String) :
    ∀ (headers : List String) (n : Nat) (p : Product),
      (∀ i, n ≤ i → i < n + headers.length → values[i]? = values'[i]?) →
      (List.enumFrom n headers).foldl
          (fun q hv => assignField q hv.2 values[hv.1]?) p
        = (List.enumFrom n headers).foldl
            (fun q hv => assignField q hv.2 values'[hv.1]?) p := by
  intro headers
  induction headers with
  | nil => intro n p _; rfl
  | cons h t ih =>
    intro n p hv
    rw [List.enumFrom_cons, List.foldl_cons, List.foldl_cons]
    rw [hv n le_rfl (by simp)]
    exact ih (n + 1) _ (fun i h1 h2 => hv i (by omega) (by simp at h2 ⊢; omega))

/-- Values beyond the header count are ignored: the record depends only on
the first `headers.length` entries of the value array. -/
theorem recordFromValues_take (headers values : List String) :
    recordFromValues headers values
      = recordFromValues headers (values.take headers.length) := by
  unfold recordFromValues List.enum
  exact foldAssign_congr values (values.take headers.length) headers 0 emptyProduct
    (fun i h1 h2 => (List.getElem?_take_of_lt (by omega)).symm)

/-- `splitList` on a separator-free list is the one-piece split. -/
theorem splitList_of_not_mem (sep : Char) (xs : List Char) (h : sep ∉ xs) :
    splitList sep xs = [xs] := by
  induction xs with
  | nil => rfl
  | cons c cs ih =>
    rw [List.mem_cons, not_or] at h
    rw [splitList, if_neg (fun hc => h.1 hc.symm), ih h.2]

/-- `splitList` across the first separator occurrence. -/
theorem splitList_append (sep : Char) (xs ys : List Char) (h : sep ∉ xs) :
    splitList sep (xs ++ sep :: ys) = xs :: splitList sep ys := by
  induction xs with
  | nil => simp [splitList]
  | cons c cs ih =>
    rw [List.mem_cons, not_or] at h
    rw [List.cons_append, splitList, if_neg (fun hc => h.1 hc.symm), ih h.2]

/-- `dropWhile` is the identity when no element satisfies the predicate. -/
theorem dropWhile_eq_self (p : α → Bool) (l : List α)
    (h : ∀ c ∈ l, p c = false) : l.dropWhile p = l := by
  cases l with
  | nil => rfl
  | cons c cs => rw [List.dropWhile_cons, if_neg (by simp [h c (by simp)])]

/-- JS `trim` is the identity on strings with no whitespace characters. -/
theorem jsTrim_eq_self (row : String) (h : ∀ c ∈ row.data, isJsWs c = false) :
    jsTrim row = row := by
  unfold jsTrim
  rw [dropWhile_eq_self _ _ h, dropWhile_eq_self _ _ (fun c hc => h c (by simpa using hc)),
    List.reverse_reverse]

/-- `ingest` after the row split, given a non-empty filtered row list. -/
theorem ingest_eq_of_rows (text headerRow : String) (dataRows : List String)
    (hrows : jsRows text = headerRow :: dataRows) :
    ingest text
      = if (missingOf headerRow).isEmpty
        then Except.ok (dataRows.map (rowToProduct (jsHeaders headerRow)))
        else Except.error (IngestError.validation (missingOf headerRow)) := by
  unfold ingest
  rw [hrows]

/-- Membership in the missing-column list. -/
theorem mem_missingOf (headerRow c : String) :
    c ∈ missingOf headerRow ↔ c ∈ requiredColumns ∧ c ∉ jsHeaders headerRow := by
  simp [missingOf, List.contains]

/-- Validation passes exactly when every required column occurs in the header. -/
theorem missingOf_eq_nil_iff (headerRow : String) :
    missingOf headerRow = [] ↔ ∀ c ∈ requiredColumns, c ∈ jsHeaders headerRow := by
  simp [missingOf, List.contains]

/-- When every required column is present, ingestion returns the mapped rows. -/
theorem ingest_ok_of_all_present (text headerRow : String) (dataRows : List String)
    (hrows : jsRows text = headerRow :: dataRows)
    (hall : ∀ c ∈ requiredColumns, c ∈ jsHeaders headerRow) :
    ingest text = Except.ok (dataRows.map (rowToProduct (jsHeaders headerRow))) := by
  rw [ingest_eq_of_rows text headerRow dataRows hrows,
    if_pos (by simp [List.isEmpty_iff, (missingOf_eq_nil_iff headerRow).mpr hall])]

/-! ### Claims -/

/-- C1: for every header row missing one or more of the seven required column
names, `ingest` fails with a validation error that carries exactly the missing
names, in the order of the required set, and whose message joins them with
`", "` after the `Missing required columns: ` prefix. -/
theorem C1_validation_error (text headerRow : String) (dataRows : List String)
    (hrows : jsRows text = headerRow :: dataRows)
    (hmiss : missingOf headerRow ≠ []) :
    ingest text = Except.error (IngestError.validation (missingOf headerRow)) ∧
    List.Sublist (missingOf headerRow) requiredColumns ∧
    (∀ c, c ∈ missingOf headerRow ↔ c ∈ requiredColumns ∧ c ∉ jsHeaders headerRow) ∧
    errorMessage (IngestError.validation (missingOf headerRow))
      = "Missing required columns: " ++ jsJoin ", " (missingOf headerRow) := by
  refine ⟨?_, List.filter_sublist _, fun c => mem_missingOf headerRow c, rfl⟩
  rw [ingest_eq_of_rows text headerRow dataRows hrows,
    if_neg (by simp [List.isEmpty_iff, hmiss])]

/-- C1 witness: the header `id,name` is missing the other five columns. -/
theorem C1_validation_error_witness :
    ingest "id,name" = Except.error (IngestError.validation (missingOf "id,name")) :=
  (C1_validation_error "id,name" "id,name" [] (by decide) (by decide)).1

/-- C2 counterexample: empty input does NOT yield an empty record sequence;
`rows[0]` is `undefined` and `rows[0].split(',')` throws a TypeError, which
`handleUpload` surfaces as an error. -/
theorem C2_counterexample :
    ingest "" = Except.error IngestError.typeError ∧ ingest "" ≠ Except.ok [] := by
  decide

/-- C2 amended: input with only a (validation-passing) header row yields an
empty record sequence without error, but input with NO non-blank rows makes
`ingest` fail with the TypeError from reading the header of an empty row
list. -/
theorem C2_header_only_or_empty (text : String) :
    (jsRows text = [] → ingest text = Except.error IngestError.typeError) ∧
    (∀ headerRow, jsRows text = [headerRow] → missingOf headerRow = [] →
      ingest text = Except.ok []) := by
  constructor
  · intro h; unfold ingest; rw [h]
  · intro headerRow h hv
    rw [ingest_eq_of_rows text headerRow [] h]
    simp [hv]

/-- C2 witness: a valid header alone ingests to the empty sequence. -/
theorem C2_header_only_or_empty_witness :
    ingest "id,name,description,basePrice,stock,image,category" = Except.ok [] :=
  (C2_header_only_or_empty "id,name,description,basePrice,stock,image,category").2
    "id,name,description,basePrice,stock,image,category" (by decide) (by decide)

/-- C3: the documented round trip: canonical header plus the sample data row
produce exactly one record, with numeric `basePrice = 1200` and `stock = 10`
and the other five fields the literal source strings. -/
theorem C3_round_trip :
    ingest "id,name,description,basePrice,stock,image,category\n1,Laptop Pro,High-performance laptop,1200,10,https://example.com/laptop.jpg,Electronics"
      = Except.ok [sampleProduct] := by
  decide

/-- C4: the store method `uploadProducts` is called at most once per upload
attempt: never on an error outcome, and exactly once, with the full record
sequence, on success. -/
theorem C4_store_atomic (file : Option JsFile) :
    (handleUpload file).storeCalls.length ≤ 1 ∧
    (∀ m, (handleUpload file).status = UploadStatus.error m →
      (handleUpload file).storeCalls = []) ∧
    (∀ f products, file = some f → jsEndsWith f.name ".csv" = true →
      ingest f.content = Except.ok products →
      (handleUpload file).storeCalls = [products]) := by
  match file with
  | none =>
    refine ⟨by simp [handleUpload], fun m _ => rfl, fun f products hf => by simp at hf⟩
  | some f =>
    by_cases hext : jsEndsWith f.name ".csv" = true
    · cases hi : ingest f.content with
      | error e =>
        refine ⟨?_, fun m _ => ?_, fun g products hg hgext hok => ?_⟩ <;>
          simp_all [handleUpload]
      | ok products =>
        refine ⟨?_, fun m hm => ?_, fun g products2 hg hgext hok => ?_⟩ <;>
          simp_all [handleUpload]
    · refine ⟨?_, fun m _ => ?_, fun g products hg hgext hok => ?_⟩ <;>
        simp_all [handleUpload]

/-- C4 witness: a valid header-only CSV hands the (empty) record list to the
store in a single call. -/
theorem C4_store_atomic_witness :
    (handleUpload (some (JsFile.mk "products.csv"
        "id,name,description,basePrice,stock,image,category"))).storeCalls = [[]] :=
  (C4_store_atomic _).2.2
    (JsFile.mk "products.csv" "id,name,description,basePrice,stock,image,category")
    [] rfl (by decide) (by decide)

/-- C5: with no file selected, or with a file whose name does not end in
`.csv`, the upload fails with the user-facing message before any read or
parse: the outcome does not depend on the file content and the store is never
called. -/
theorem C5_fail_fast (fname content content2 : String)
    (hext : jsEndsWith fname ".csv" = false) :
    handleUpload none
      = { status := UploadStatus.error "Please select a CSV file.",
          storeCalls := [] } ∧
    handleUpload (some (JsFile.mk fname content))
      = { status := UploadStatus.error "Please upload a valid CSV file.",
          storeCalls := [] } ∧
    handleUpload (some (JsFile.mk fname content))
      = handleUpload (some (JsFile.mk fname content2)) := by
  refine ⟨rfl, ?_, ?_⟩ <;> simp [handleUpload, hext]

/-- C5 witness: a `.txt` file is rejected whatever its content. -/
theorem C5_fail_fast_witness :
    handleUpload (some (JsFile.mk "data.txt"
        "id,name,description,basePrice,stock,image,category"))
      = { status := UploadStatus.error "Please upload a valid CSV file.",
          storeCalls := [] } :=
  (C5_fail_fast "data.txt" "id,name,description,basePrice,stock,image,category"
    "" (by decide)).2.1

/-- C6: any header row containing all seven required names as exact matches,
in any order and possibly with extra columns, passes validation and ingestion
proceeds to the data rows. -/
theorem C6_header_any_order (text headerRow : String) (dataRows : List String)
    (hrows : jsRows text = headerRow :: dataRows)
    (hall : ∀ c ∈ requiredColumns, c ∈ jsHeaders headerRow) :
    missingOf headerRow = [] ∧
    ingest text = Except.ok (dataRows.map (rowToProduct (jsHeaders headerRow))) := by
  exact ⟨(missingOf_eq_nil_iff headerRow).mpr hall,
    ingest_ok_of_all_present text headerRow dataRows hrows hall⟩

/-- C6 witness: a reordered header with an extra trailing column passes. -/
theorem C6_header_any_order_witness :
    ingest "category,stock,id,name,description,basePrice,image,extra"
      = Except.ok (List.map
          (rowToProduct (jsHeaders "category,stock,id,name,description,basePrice,image,extra"))
          []) :=
  (C6_header_any_order "category,stock,id,name,description,basePrice,image,extra"
    "category,stock,id,name,description,basePrice,image,extra" []
    (by decide) (by decide)).2

/-- C7: a non-numeric `basePrice` or `stock` value is not an error: ingestion
still succeeds and the record it builds for that row carries NaN in the
affected field (`parseFloat` of the raw text). -/
theorem C7_nan_not_error (text headerRow : String) (dataRows : List String)
    (row : String)
    (hrows : jsRows text = headerRow :: dataRows)
    (hall : ∀ c ∈ requiredColumns, c ∈ jsHeaders headerRow)
    (hrow : row ∈ dataRows) :
    (∃ products, ingest text = Except.ok products ∧
      rowToProduct (jsHeaders headerRow) row ∈ products) ∧
    (∀ i v, lastIdxFrom "basePrice" 0 (jsHeaders headerRow) = some i →
      (jsSplit ',' row)[i]? = some v → parseFloat v = JsNum.nan →
      (rowToProduct (jsHeaders headerRow) row).basePrice = JsNum.nan) ∧
    (∀ i v, lastIdxFrom "stock" 0 (jsHeaders headerRow) = some i →
      (jsSplit ',' row)[i]? = some v → parseFloat v = JsNum.nan →
      (rowToProduct (jsHeaders headerRow) row).stock = JsNum.nan) := by
  refine ⟨⟨dataRows.map (rowToProduct (jsHeaders headerRow)),
      ingest_ok_of_all_present text headerRow dataRows hrows hall,
      List.mem_map_of_mem _ hrow⟩, fun i v hi hv hnan => ?_, fun i v hi hv hnan => ?_⟩
  · rw [rowToProduct, recordFromValues_basePrice, hi]
    show parseFloatOpt (jsSplit ',' row)[i]? = JsNum.nan
    rw [hv]
    exact hnan
  · rw [rowToProduct, recordFromValues_stock, hi]
    show parseFloatOpt (jsSplit ',' row)[i]? = JsNum.nan
    rw [hv]
    exact hnan

/-- C7 witness: `basePrice = "abc"` and `stock = "xyz"` both become NaN in the
record built for the row, and ingestion succeeds. -/
theorem C7_nan_not_error_witness :
    (rowToProduct (jsHeaders "id,name,description,basePrice,stock,image,category")
        "1,A,B,abc,xyz,u,Electronics").basePrice = JsNum.nan ∧
    (rowToProduct (jsHeaders "id,name,description,basePrice,stock,image,category")
        "1,A,B,abc,xyz,u,Electronics").stock = JsNum.nan :=
  ⟨(C7_nan_not_error
      "id,name,description,basePrice,stock,image,category\n1,A,B,abc,xyz,u,Electronics"
      "id,name,description,basePrice,stock,image,category" ["1,A,B,abc,xyz,u,Electronics"]
      "1,A,B,abc,xyz,u,Electronics" (by decide) (by decide) (by decide)).2.1
      3 "abc" (by decide) (by decide) (by decide),
   (C7_nan_not_error
      "id,name,description,basePrice,stock,image,category\n1,A,B,abc,xyz,u,Electronics"
      "id,name,description,basePrice,stock,image,category" ["1,A,B,abc,xyz,u,Electronics"]
      "1,A,B,abc,xyz,u,Electronics" (by decide) (by decide) (by decide)).2.2
      4 "xyz" (by decide) (by decide) (by decide)⟩

/-- C8: under a validation-passing header, `ingest` returns exactly one
record per non-blank row after the header, in the original row order (a
`map` over the filtered row tail); the row filter drops exactly the rows
that are empty after trimming, and a non-empty row consisting only of commas
is not discarded (commas are not whitespace). -/
theorem C8_one_record_per_row (text headerRow : String) (dataRows : List String)
    (hrows : jsRows text = headerRow :: dataRows)
    (hvalid : missingOf headerRow = []) :
    ingest text = Except.ok (dataRows.map (rowToProduct (jsHeaders headerRow))) ∧
    (dataRows.map (rowToProduct (jsHeaders headerRow))).length = dataRows.length ∧
    jsRows text = (jsSplit '\n' text).filter (fun row => jsTrim row != "") ∧
    (∀ row : String, row.data ≠ [] → (∀ c ∈ row.data, c = ',') →
      jsTrim row = row ∧ (jsTrim row != "") = true) := by
  refine ⟨?_, dataRows.length_map _, rfl, fun row hne hcomma => ?_⟩
  · exact ingest_ok_of_all_present text headerRow dataRows hrows
      ((missingOf_eq_nil_iff headerRow).mp hvalid)
  · have htrim : jsTrim row = row :=
      jsTrim_eq_self row (fun c hc => by rw [hcomma c hc]; rfl)
    refine ⟨htrim, ?_⟩
    rw [htrim]
    simpa [String.ext_iff] using hne

/-- C8 witness: a row of six commas survives the filter and yields a record
(one record for the one non-blank data row). -/
theorem C8_one_record_per_row_witness :
    ingest "id,name,description,basePrice,stock,image,category\n,,,,,,"
      = Except.ok (List.map
          (rowToProduct (jsHeaders "id,name,description,basePrice,stock,image,category"))
          [",,,,,,"]) :=
  (C8_one_record_per_row "id,name,description,basePrice,stock,image,category\n,,,,,,"
    "id,name,description,basePrice,stock,image,category" [",,,,,,"]
    (by decide) (by decide)).1

/-- C9: row length is not validated. Ingestion succeeds regardless of the
number of fields in a data row; a header position at or beyond the row
value count reads `undefined`, which leaves NaN in `basePrice` (via
`parseFloat(undefined)`) and `undefined` in a string field such as `id`;
values beyond the header count are ignored. -/
theorem C9_row_shape_tolerant (text headerRow : String) (dataRows : List String)
    (row : String)
    (hrows : jsRows text = headerRow :: dataRows)
    (hall : ∀ c ∈ requiredColumns, c ∈ jsHeaders headerRow)
    (hrow : row ∈ dataRows) :
    (∃ products, ingest text = Except.ok products ∧
      rowToProduct (jsHeaders headerRow) row ∈ products) ∧
    parseFloat "undefined" = JsNum.nan ∧
    (∀ i, lastIdxFrom "basePrice" 0 (jsHeaders headerRow) = some i →
      (jsSplit ',' row).length ≤ i →
      (rowToProduct (jsHeaders headerRow) row).basePrice = JsNum.nan) ∧
    (∀ i, lastIdxFrom "id" 0 (jsHeaders headerRow) = some i →
      (jsSplit ',' row).length ≤ i →
      (rowToProduct (jsHeaders headerRow) row).id = none) ∧
    rowToProduct (jsHeaders headerRow) row
      = recordFromValues (jsHeaders headerRow)
          ((jsSplit ',' row).take (jsHeaders headerRow).length) := by
  refine ⟨⟨dataRows.map (rowToProduct (jsHeaders headerRow)),
      ingest_ok_of_all_present text headerRow dataRows hrows hall,
      List.mem_map_of_mem _ hrow⟩, by decide, fun i hi hlen => ?_, fun i hi hlen => ?_,
    recordFromValues_take (jsHeaders headerRow) (jsSplit ',' row)⟩
  · rw [rowToProduct, recordFromValues_basePrice, hi]
    show parseFloatOpt (jsSplit ',' row)[i]? = JsNum.nan
    rw [List.getElem?_eq_none hlen]
    decide
  · rw [rowToProduct, recordFromValues_id, hi]
    show (jsSplit ',' row)[i]? = none
    exact List.getElem?_eq_none hlen

/-- C9 witness: a two-value row under a seven-column header (with `basePrice`
at position 2 and `id` at position 6) gets NaN and `undefined` silently. -/
theorem C9_row_shape_tolerant_witness :
    (rowToProduct (jsHeaders "name,description,basePrice,stock,image,category,id")
        "1,A").basePrice = JsNum.nan ∧
    (rowToProduct (jsHeaders "name,description,basePrice,stock,image,category,id")
        "1,A").id = none :=
  ⟨(C9_row_shape_tolerant
      "name,description,basePrice,stock,image,category,id\n1,A"
      "name,description,basePrice,stock,image,category,id" ["1,A"] "1,A"
      (by decide) (by decide) (by decide)).2.2.1 2 (by decide) (by decide),
   (C9_row_shape_tolerant
      "name,description,basePrice,stock,image,category,id\n1,A"
      "name,description,basePrice,stock,image,category,id" ["1,A"] "1,A"
      (by decide) (by decide) (by decide)).2.2.2.1 6 (by decide) (by decide)⟩

/-- C10: the row split is on `'\n'` alone and carriage returns are kept: a
CRLF line break leaves a trailing `'\r'` on the piece before it, so in a CRLF
file the last header name keeps the `'\r'`; concretely, the sample CSV with
CRLF line endings fails validation with `category` reported missing. -/
theorem C10_crlf_not_handled (a b : String)
    (ha : '\n' ∉ a.data) (hb : '\n' ∉ b.data) :
    jsSplit '\n' (a ++ "\r\n" ++ b) = [a ++ "\r", b] ∧
    missingOf "id,name,description,basePrice,stock,image,category\r" = ["category"] ∧
    ingest "id,name,description,basePrice,stock,image,category\r\n1,Laptop Pro,High-performance laptop,1200,10,https://example.com/laptop.jpg,Electronics"
      = Except.error (IngestError.validation ["category"]) := by
  refine ⟨?_, by decide, by decide⟩
  unfold jsSplit
  have hdata : (a ++ "\r\n" ++ b).data = (a.data ++ ['\r']) ++ '\n' :: b.data := by
    simp
  rw [hdata, splitList_append _ _ _ (by simp [ha, List.mem_append]),
    splitList_of_not_mem _ _ hb]
  exact List.map_cons .. ▸ rfl

/-- C10 witness: a concrete CRLF break keeps the `'\r'` on the left piece. -/
theorem C10_crlf_not_handled_witness :
    jsSplit '\n' ("abc" ++ "\r\n" ++ "xyz") = ["abc" ++ "\r", "xyz"] :=
  (C10_crlf_not_handled "abc" "xyz" (by decide) (by decide)).1

end CsvUpload

